import Mathlib

/-!
Verification of the statsig-client repository (Rust) against its
natural-language specification.

The development shallowly embeds the parts of the source that the claims
touch:

* src/user.rs : the User record and User::hash_for_cache (SHA-256 over the
  stable identifiers, implemented here in full so digests are computable);
* src/batch.rs : BatchProcessor::process_gate_batch;
* src/transport.rs : RateLimitRetryMiddleware::handle, parse_retry_after and
  No429RetryStrategy;
* src/response.rs : ApiResponseHandler::truncate / error_from_response /
  handle;
* src/config.rs : StatsigClientConfig::validate;
* src/lib.rs : check_gates / check_gate / get_config_evaluations /
  get_config and validate_entity_name;
* src/cache_metrics.rs : CacheMetrics and its summary.

Rust strings are modelled as lists of Unicode scalar values (one Nat per
char); their UTF-8 byte sequences are recovered explicitly where the source
works on bytes (hashing, slicing). Rust HashMap values are modelled as
association lists whose order stands for the iteration order of the
concrete map instance, which in Rust depends on the per-map RandomState
seed and is therefore not a function of the map contents alone.
-/

namespace Statsig

/-- A Rust String / str as its list of Unicode scalar values. -/
abbrev RStr := List Nat

/-- Embed a Lean string literal as an RStr. -/
def ofStr (s : String) : RStr := s.toList.map Char.toNat

/-- Number of bytes of the UTF-8 encoding of one Unicode scalar value. -/
def utf8Len (c : Nat) : Nat :=
  if c < 128 then 1 else if c < 2048 then 2 else if c < 65536 then 3 else 4

/-- UTF-8 encoding of one Unicode scalar value. -/
def utf8Bytes (c : Nat) : List Nat :=
  if c < 128 then [c]
  else if c < 2048 then [192 + c / 64, 128 + c % 64]
  else if c < 65536 then [224 + c / 4096, 128 + (c / 64) % 64, 128 + c % 64]
  else [240 + c / 262144, 128 + (c / 4096) % 64, 128 + (c / 64) % 64, 128 + c % 64]

/-- UTF-8 bytes of a string, as produced by Rust str::as_bytes. -/
def rstrBytes : RStr → List Nat
  | [] => []
  | c :: cs => utf8Bytes c ++ rstrBytes cs

theorem rstrBytes_append (x y : RStr) :
    rstrBytes (x ++ y) = rstrBytes x ++ rstrBytes y := by
  induction x with
  | nil => rfl
  | cons c cs ih => simp [rstrBytes, ih]

/-- Byte length of a string, as returned by Rust String::len. -/
def rstrByteLen (s : RStr) : Nat := (rstrBytes s).length

/-! ### SHA-256 (the sha2 crate used by User::hash_for_cache) -/

/-- Reduce to a 32-bit word. -/
def w32 (x : Nat) : Nat := x % 4294967296

/-- 32-bit right rotation. -/
def rotr32 (n x : Nat) : Nat := w32 ((x >>> n) ||| (x <<< (32 - n)))

def sha256Ch (e f g : Nat) : Nat := (e &&& f) ^^^ ((e ^^^ 4294967295) &&& g)

def sha256Maj (a b c : Nat) : Nat := (a &&& b) ^^^ (a &&& c) ^^^ (b &&& c)

def bigSigma0 (x : Nat) : Nat := rotr32 2 x ^^^ rotr32 13 x ^^^ rotr32 22 x

def bigSigma1 (x : Nat) : Nat := rotr32 6 x ^^^ rotr32 11 x ^^^ rotr32 25 x

def smallSigma0 (x : Nat) : Nat := rotr32 7 x ^^^ rotr32 18 x ^^^ (x >>> 3)

def smallSigma1 (x : Nat) : Nat := rotr32 17 x ^^^ rotr32 19 x ^^^ (x >>> 10)

/-- The 64 SHA-256 round constants (FIPS 180-4, written in decimal). -/
def sha256K : List Nat :=
  [1116352408, 1899447441, 3049323471, 3921009573, 961987163,
   1508970993, 2453635748, 2870763221, 3624381080, 310598401,
   607225278, 1426881987, 1925078388, 2162078206, 2614888103,
   3248222580, 3835390401, 4022224774, 264347078, 604807628,
   770255983, 1249150122, 1555081692, 1996064986, 2554220882,
   2821834349, 2952996808, 3210313671, 3336571891, 3584528711,
   113926993, 338241895, 666307205, 773529912, 1294757372,
   1396182291, 1695183700, 1986661051, 2177026350, 2456956037,
   2730485921, 2820302411, 3259730800, 3345764771, 3516065817,
   3600352804, 4094571909, 275423344, 430227734, 506948616,
   659060556, 883997877, 958139571, 1322822218, 1537002063,
   1747873779, 1955562222, 2024104815, 2227730452, 2361852424,
   2428436474, 2756734187, 3204031479, 3329325298]

/-- Big-endian bytes of a number, fixed width. -/
def beBytes : Nat → Nat → List Nat
  | 0, _ => []
  | k + 1, n => (n >>> (8 * k)) % 256 :: beBytes k n

/-- SHA-256 padding: 0x80, zeros to 56 mod 64, then the 64-bit bit length. -/
def sha256Pad (msg : List Nat) : List Nat :=
  msg ++ [128] ++ List.replicate ((119 - msg.length % 64) % 64) 0
      ++ beBytes 8 (8 * msg.length)

/-- Group bytes into big-endian 32-bit words. -/
def bytesToWords : List Nat → List Nat
  | a :: b :: c :: d :: rest => (((a * 256 + b) * 256 + c) * 256 + d) :: bytesToWords rest
  | _ => []

/-- One step of the message-schedule extension; the accumulator holds the
words produced so far, most recent first. -/
def scheduleStep (acc : List Nat) : List Nat :=
  w32 (smallSigma1 (acc.getD 1 0) + acc.getD 6 0
        + smallSigma0 (acc.getD 14 0) + acc.getD 15 0) :: acc

/-- Extend the 16 block words to the 64 schedule words. -/
def sha256Schedule (ws : List Nat) : List Nat :=
  ((List.range 48).foldl (fun acc _ => scheduleStep acc) ws.reverse).reverse

/-- The eight working registers of the compression function. -/
structure Sha256Regs where
  a : Nat
  b : Nat
  c : Nat
  d : Nat
  e : Nat
  f : Nat
  g : Nat
  h : Nat
deriving DecidableEq

/-- One compression round. -/
def sha256Round (r : Sha256Regs) (kw : Nat × Nat) : Sha256Regs :=
  let t1 := w32 (r.h + bigSigma1 r.e + sha256Ch r.e r.f r.g + kw.1 + kw.2)
  let t2 := w32 (bigSigma0 r.a + sha256Maj r.a r.b r.c)
  ⟨w32 (t1 + t2), r.a, r.b, r.c, w32 (r.d + t1), r.e, r.f, r.g⟩

/-- Process one 64-byte block. -/
def sha256Block (st : Sha256Regs) (block : List Nat) : Sha256Regs :=
  let r := (sha256K.zip (sha256Schedule (bytesToWords block))).foldl sha256Round st
  ⟨w32 (st.a + r.a), w32 (st.b + r.b), w32 (st.c + r.c), w32 (st.d + r.d),
   w32 (st.e + r.e), w32 (st.f + r.f), w32 (st.g + r.g), w32 (st.h + r.h)⟩

/-- Split a byte list into 64-byte chunks; the first argument is fuel,
structurally decreasing so that digests reduce inside the kernel. -/
def chunks64Go : Nat → List Nat → List (List Nat)
  | 0, _ => []
  | _ + 1, [] => []
  | fuel + 1, a :: l => (a :: l).take 64 :: chunks64Go fuel ((a :: l).drop 64)

/-- Split a byte list into 64-byte chunks. -/
def chunks64 (l : List Nat) : List (List Nat) := chunks64Go l.length l

/-- The SHA-256 initial state (FIPS 180-4, written in decimal). -/
def sha256Init : Sha256Regs :=
  ⟨1779033703, 3144134277, 1013904242, 2773480762,
   1359893119, 2600822924, 528734635, 1541459225⟩

/-- SHA-256 digest (32 bytes) of a byte message. -/
def sha256 (msg : List Nat) : List Nat :=
  let fin := (chunks64 (sha256Pad msg)).foldl sha256Block sha256Init
  beBytes 4 fin.a ++ beBytes 4 fin.b ++ beBytes 4 fin.c ++ beBytes 4 fin.d
    ++ beBytes 4 fin.e ++ beBytes 4 fin.f ++ beBytes 4 fin.g ++ beBytes 4 fin.h

/-- Lowercase hex digit. -/
def hexDigit (n : Nat) : Char :=
  Char.ofNat (if n < 10 then 48 + n else 87 + n)

/-- Lowercase hex encoding of a byte list, as the hex crate produces. -/
def hexEncode (bs : List Nat) : String :=
  String.mk (bs.foldr (fun b acc => hexDigit (b / 16) :: hexDigit (b % 16) :: acc) [])

/-! ### Error taxonomy (src/error.rs) -/

/-- StatsigError from src/error.rs; message payloads are modelled as RStr. -/
inductive StatsigError where
  | api (status : Nat) (message : RStr)
  | network (message : RStr)
  | serialization (message : RStr)
  | validation (message : RStr)
  | configuration (message : RStr)
  | cache (message : RStr)
  | batchProcessor (message : RStr)
  | rateLimited (retry_after_seconds : Nat)
  | unauthorized
  | userValidation (message : RStr)
  | gateNotFound (name : RStr)
  | configNotFound (name : RStr)
  | internal (message : RStr)
deriving DecidableEq

/-! ### JSON values (serde_json::Value), only as deep as the claims need:
the claims inspect whether a config value is null, never its structure, so
composite values are kept but their entries are ordinary lists. -/

inductive JsonValue where
  | null
  | bool (b : Bool)
  | num (n : Int)
  | str (s : RStr)
deriving DecidableEq

/-! ### User (src/user.rs) -/

/-- EnvironmentTier from src/user.rs. -/
inductive EnvironmentTier where
  | production
  | staging
  | development
deriving DecidableEq

/-- StatsigEnvironment from src/user.rs. -/
structure StatsigEnvironment where
  tier : EnvironmentTier
deriving DecidableEq

/-- User from src/user.rs. Rust HashMap fields (custom, private_attributes,
custom_ids) are association lists whose order models the iteration order of
the concrete HashMap instance; in Rust that order depends on the per-map
RandomState seed, so two maps with equal contents may iterate differently. -/
structure User where
  user_id : Option RStr
  email : Option RStr
  ip : Option RStr
  user_agent : Option RStr
  country : Option RStr
  locale : Option RStr
  app_version : Option RStr
  custom : Option (List (RStr × JsonValue))
  private_attributes : Option (List (RStr × JsonValue))
  custom_ids : Option (List (RStr × RStr))
  statsig_environment : Option StatsigEnvironment
deriving DecidableEq

/-- The Default derive on User: every field absent. -/
def User.default : User :=
  ⟨none, none, none, none, none, none, none, none, none, none, none⟩

/-- Bytes fed to the hasher for the custom_ids map, in iteration order:
for each pair, the key bytes then the value bytes (user.rs lines 171-176). -/
def customIdsBytes : List (RStr × RStr) → List Nat
  | [] => []
  | (k, v) :: rest => rstrBytes k ++ rstrBytes v ++ customIdsBytes rest

/-- The byte stream User::hash_for_cache feeds into Sha256: user_id bytes if
present, then email bytes if present, then key/value bytes of each
custom_ids entry in map iteration order (user.rs lines 162-176). -/
def hashInput (u : User) : List Nat :=
  (match u.user_id with | none => [] | some s => rstrBytes s)
    ++ (match u.email with | none => [] | some s => rstrBytes s)
    ++ (match u.custom_ids with | none => [] | some l => customIdsBytes l)

/-- User::hash_for_cache from src/user.rs: hex-encoded SHA-256 of the
identifier byte stream. -/
def hash_for_cache (u : User) : String :=
  hexEncode (sha256 (hashInput u))

/-! ### Evaluation results (src/api.rs) -/

/-- GateEvaluationResult from src/api.rs. -/
structure GateEvaluationResult where
  name : String
  value : Bool
  rule_id : Option String
  group_name : Option String
deriving DecidableEq

/-- ConfigEvaluationResult from src/api.rs. -/
structure ConfigEvaluationResult where
  name : String
  value : JsonValue
  rule_id : Option String
  group_name : Option String
  group : Option String
deriving DecidableEq

/-! ### Batch processor (src/batch.rs)

A pending CheckGates batch request: the requested gate names, the user, and
the identity of its oneshot reply channel (modelled as a Nat id). The gate
flush path of BatchProcessor::process_gate_batch is modelled as a pure
function from the drained pending list to the list of transport calls
issued and the list of replies sent, one per request. The HashMap of user
groups is modelled in first-occurrence order of the user hashes; the source
iterates it in unspecified order, which affects only the relative order of
calls and replies, not which call is made for a group or what each request
receives. -/

structure GateBatchRequest where
  id : Nat
  gate_names : List String
  user : User
deriving DecidableEq

/-- BatchProcessor::hash_user_for_batch, which is User::hash_for_cache. -/
def hash_user_for_batch (u : User) : String := hash_for_cache u

/-- One step of collecting the distinct user hashes in first-occurrence
order. -/
def gkStep (acc : List String) (r : GateBatchRequest) : List String :=
  if acc.contains (hash_user_for_batch r.user) then acc
  else acc ++ [hash_user_for_batch r.user]

/-- Distinct user hashes of the batch, in first-occurrence order (the keys
of the user_groups HashMap built at batch.rs lines 95-101). -/
def groupKeys (reqs : List GateBatchRequest) : List String :=
  reqs.foldl gkStep []

/-- The requests of one user group, in arrival order (Vec push order). -/
def groupOf (reqs : List GateBatchRequest) (h : String) : List GateBatchRequest :=
  reqs.filter (fun r => hash_user_for_batch r.user == h)

/-- all_gate_names for a group (batch.rs lines 106-116): the clone-flatten
of each member request gate-name list, in order, with no deduplication. -/
def groupGateNames (g : List GateBatchRequest) : List String :=
  g.foldr (fun r acc => r.gate_names ++ acc) []

/-- The replies sent for one group once the transport call returned
(batch.rs lines 118-146): on success each request gets the results whose
names it asked for; on failure each gets a clone of the error. -/
def groupReplies (g : List GateBatchRequest)
    (outcome : Except StatsigError (List GateEvaluationResult)) :
    List (Nat × Except StatsigError (List GateEvaluationResult)) :=
  match outcome with
  | .ok results =>
      g.map (fun r =>
        (r.id, .ok (results.filter (fun res => r.gate_names.contains res.name))))
  | .error e => g.map (fun r => (r.id, .error e))

/-- BatchProcessor::process_gate_batch: group by user hash; per nonempty
group issue one transport call with the first member as the user and the
concatenated gate names, then fan the outcome back out. Returns the calls
issued and all replies sent. -/
def process_gate_batch
    (transport : List String → User → Except StatsigError (List GateEvaluationResult))
    (reqs : List GateBatchRequest) :
    List (List String × User) × List (Nat × Except StatsigError (List GateEvaluationResult)) :=
  let groups := (groupKeys reqs).map (fun h => groupOf reqs h)
  (groups.filterMap (fun g => g.head?.map (fun fst => (groupGateNames g, fst.user))),
   (groups.map (fun g =>
      match g.head? with
      | none => []
      | some fst => groupReplies g (transport (groupGateNames g) fst.user))).flatten)

/-! ### Transport retry machinery (src/transport.rs)

Durations are modelled in nanoseconds (the resolution of std Duration);
instants (SystemTime) are nanoseconds since the epoch. The httpdate crate
parser parse_http_date is external to the repository, so it enters the
model as a parameter mapping a header string to the epoch instant it
denotes, when it denotes one. -/

/-- Rust u64::from_str as used by value.parse::<u64>() in parse_retry_after
and error_from_response: an optional leading plus sign, then one or more
ASCII digits, value below 2^64. -/
def parseU64 (s : String) : Option Nat :=
  let cs := s.toList
  let ds := match cs with
    | c :: rest => if c = '+' then rest else cs
    | [] => cs
  if ds = [] then none
  else if ds.all Char.isDigit then
    let n := ds.foldl (fun acc c => acc * 10 + (c.toNat - 48)) 0
    if n < 18446744073709551616 then some n else none
  else none

/-- parse_retry_after from src/transport.rs (lines 235-242): integer header
values become whole seconds; otherwise the header is given to the HTTP-date
parser and the resulting instant is compared to now with
SystemTime::duration_since, which fails (yielding None here) whenever the
instant lies strictly in the past. -/
def parse_retry_after (parseHttpDate : String → Option Nat) (now : Nat)
    (value : String) : Option Nat :=
  match parseU64 value with
  | some seconds => some (seconds * 1000000000)
  | none =>
    match parseHttpDate value with
    | none => none
    | some t => if now ≤ t then some (t - now) else none

/-- One HTTP response as the rate-limit middleware observes it: the status
code and the Retry-After header value when one is present (and readable as
a string, which header values of interest always are). -/
structure RlResponse where
  status : Nat
  retry_after : Option String
deriving DecidableEq

/-- The sleep the middleware performs before re-issuing (transport.rs lines
222-229): the parsed Retry-After value, or the configured fallback delay. -/
def retryDelay (parseHttpDate : String → Option Nat) (now fallback : Nat)
    (resp : RlResponse) : Nat :=
  ((resp.retry_after).bind (parse_retry_after parseHttpDate now)).getD fallback

/-- The loop body of RateLimitRetryMiddleware::handle (transport.rs lines
207-231). The function next gives the response to the n-th issue of the
request; the result is the returned response, the list of sleeps performed,
and the index of the attempt whose response was returned. The fuel argument
is maxRetries + 1 - n, so it never reaches zero before the loop exits. -/
def rlGo (next : Nat → RlResponse) (parseHttpDate : String → Option Nat)
    (now fallback maxRetries : Nat) : Nat → Nat → RlResponse × List Nat × Nat
  | 0, n => (next n, [], n)
  | fuel + 1, n =>
    let resp := next n
    if resp.status ≠ 429 then (resp, [], n)
    else if maxRetries ≤ n then (resp, [], n)
    else
      let d := retryDelay parseHttpDate now fallback resp
      let rest := rlGo next parseHttpDate now fallback maxRetries fuel (n + 1)
      (rest.1, d :: rest.2.1, rest.2.2)

/-- RateLimitRetryMiddleware::handle as a whole run. -/
def rateLimitHandle (next : Nat → RlResponse) (parseHttpDate : String → Option Nat)
    (now fallback maxRetries : Nat) : RlResponse × List Nat × Nat :=
  rlGo next parseHttpDate now fallback maxRetries (maxRetries + 1) 0

/-! ### Generic retry strategy No429RetryStrategy (src/transport.rs) -/

/-- Retryable from the reqwest_retry crate. -/
inductive Retryable where
  | transient
  | fatal
deriving DecidableEq

/-- The outcome No429RetryStrategy::handle classifies: a response with its
status code, or a request failure, of which the model keeps the one bit the
classification inspects. -/
inductive RequestOutcome where
  | ok (status : Nat)
  | failure (connectionLevel : Bool)
deriving DecidableEq

/-- Modelled from the spec: reqwest_retry::default_on_request_failure is
crate code outside this repository; spec section 4.3 classifies
connection-level failures as Transient and everything else as not
retryable. -/
def default_on_request_failure (connectionLevel : Bool) : Option Retryable :=
  if connectionLevel then some .transient else some .fatal

/-- No429RetryStrategy::handle from src/transport.rs lines 266-288. -/
def no429Handle : RequestOutcome → Option Retryable
  | .ok status =>
    if status = 429 then some .fatal
    else if (500 ≤ status ∧ status ≤ 599) ∨ status = 408 then some .transient
    else if 200 ≤ status ∧ status ≤ 299 then none
    else some .fatal
  | .failure conn => default_on_request_failure conn

/-! ### Response handling (src/response.rs)

Response bodies are RStr values (Unicode scalars); the source slices them
by byte index, so byte positions are computed through the UTF-8 encoding.
A Rust string slice at a byte index that is not a character boundary
panics; such a panic is modelled as the value none. -/

/-- Take the first n UTF-8 bytes off a string, as Rust slicing does:
returns none exactly when position n falls strictly inside a character,
which is the case in which the source panics. -/
def takeBytes : Nat → RStr → Option RStr
  | 0, _ => some []
  | _ + 1, [] => none
  | n + 1, c :: cs =>
    if utf8Len c ≤ n + 1 then (takeBytes (n + 1 - utf8Len c) cs).map (c :: ·)
    else none

/-- ApiResponseHandler::truncate (response.rs lines 79-86): bodies of at
most 2000 bytes pass through; longer ones are cut at byte 2000 (a panic,
modelled as none, when that is not a character boundary) and the marker is
appended. -/
def truncateBody (body : RStr) : Option RStr :=
  if rstrByteLen body ≤ 2000 then some body
  else (takeBytes 2000 body).map (· ++ ofStr "...(truncated)")

/-- ApiResponseHandler::error_from_response (response.rs lines 88-107) for
a body that was read successfully; none models a panic inside truncate. -/
def error_from_response (status : Nat) (retryAfterHeader : Option String)
    (body : RStr) : Option StatsigError :=
  if status = 401 then some .unauthorized
  else if status = 429 then
    some (.rateLimited ((retryAfterHeader.bind parseU64).getD 60))
  else (truncateBody body).map (fun b => .api status b)

/-- ApiResponseHandler::handle (response.rs lines 20-30) over an already
read body, with the JSON decode supplied as a parameter returning either
the decoded value or the serde error text. The outer none models a panic
inside truncate. -/
def handleResponse {α : Type} (decode : RStr → Except RStr α)
    (status : Nat) (retryAfterHeader : Option String) (body : RStr) :
    Option (Except StatsigError α) :=
  if 200 ≤ status ∧ status ≤ 299 then
    match decode body with
    | .ok v => some (.ok v)
    | .error e =>
      (truncateBody body).map (fun b =>
        .error (.serialization
          (ofStr "Response body: " ++ b ++ ofStr ": "
            ++ ofStr "Failed to parse response JSON: " ++ e)))
  else (error_from_response status retryAfterHeader body).map .error

/-! ### Configuration (src/config.rs)

Durations are nanoseconds; Duration::as_secs is division by 10^9. -/

/-- StatsigClientConfig from src/config.rs. -/
structure StatsigClientConfig where
  api_key : String
  base_url : String
  events_base_url : String
  timeout : Nat
  retry_attempts : Nat
  retry_delay : Nat
  cache_ttl : Nat
  cache_max_capacity : Nat
  batch_size : Nat
  batch_flush_interval : Nat
  offline_fallback : Bool
  exposure_logging_disabled : Bool
  sdk_type : String
  sdk_version : String
deriving DecidableEq

/-- StatsigClientConfig::validate (config.rs lines 50-88). -/
def configValidate (c : StatsigClientConfig) : Except StatsigError Unit :=
  if c.api_key = "" then
    .error (.configuration (ofStr "API key cannot be empty"))
  else if c.base_url = "" then
    .error (.configuration (ofStr "Base URL cannot be empty"))
  else if c.timeout / 1000000000 = 0 then
    .error (.configuration (ofStr "Timeout must be greater than 0"))
  else if c.retry_attempts = 0 then
    .error (.configuration (ofStr "Retry attempts must be greater than 0"))
  else if c.batch_size = 0 then
    .error (.configuration (ofStr "Batch size must be greater than 0"))
  else if c.cache_ttl / 1000000000 = 0 then
    .error (.configuration (ofStr "Cache TTL must be greater than 0"))
  else .ok ()

/-- StatsigClient::with_config (lib.rs lines 139-163) up to the point where
construction is decided: validation runs first and its error is returned
before the transport, cache or batch worker are touched; a successful
validation proceeds to assembly (collapsed to a unit here, since nothing
after validation can fail in the model). -/
def with_config (c : StatsigClientConfig) : Except StatsigError Unit :=
  match configValidate c with
  | .error e => .error e
  | .ok () => .ok ()

/-! ### Client lookups (src/lib.rs)

The moka cache is modelled at a point in time as a function from cache key
to the stored evaluation, with the writes the call performs reported
separately; cache metric recordings are reported as an event list. The
validator email check comes from the validator crate, outside this
repository, so it is a parameter. The reply a single in-flight request
receives from the batch worker is the raw transport outcome with, for the
gate path, the results filtered down to the names this request asked for
(batch.rs lines 128-132); the config path delivers one transport call per
name, stopping at the first error (batch.rs lines 175-188). -/

/-- EntityType from src/lib.rs. -/
inductive EntityType where
  | gate
  | config
deriving DecidableEq

/-- CacheKey from src/lib.rs. -/
structure CacheKey where
  entity_type : EntityType
  entity_name : String
  user_hash : String
deriving DecidableEq

/-- EvaluationResult from src/lib.rs. -/
inductive EvaluationResult where
  | gate (g : GateEvaluationResult)
  | config (c : ConfigEvaluationResult)
deriving DecidableEq

/-- StatsigClient::create_cache_key from src/lib.rs. -/
def create_cache_key (t : EntityType) (name : String) (u : User) : CacheKey :=
  ⟨t, name, hash_for_cache u⟩

/-- Cache metric recordings, in the order the call makes them. -/
inductive MetricEvent where
  | hit
  | miss
  | insert
deriving DecidableEq

/-- User::validate_user (the validator derive on User): user_id 1-100
characters, email valid per the validator crate check (a parameter here,
since that code is outside the repository), ip 7-45 characters, country
exactly 2 characters; other fields are unconstrained. -/
def validate_user (emailOk : RStr → Bool) (u : User) : Bool :=
  (match u.user_id with | none => true | some s => 1 ≤ s.length && s.length ≤ 100)
    && (match u.email with | none => true | some s => emailOk s)
    && (match u.ip with | none => true | some s => 7 ≤ s.length && s.length ≤ 45)
    && (match u.country with | none => true | some s => s.length = 2)

/-- validate_entity_name from src/lib.rs lines 492-501 (character count
between 2 and 100). -/
def validate_entity_name (kind : String) (name : String) : Except StatsigError Unit :=
  if 2 ≤ name.length ∧ name.length ≤ 100 then .ok ()
  else .error (.validation (ofStr kind ++ ofStr " name must be between 2 and 100 characters"))

/-- The first name-validation error of the loop over requested names. -/
def firstNameError (kind : String) (names : List String) : Option StatsigError :=
  names.findSome? (fun n =>
    match validate_entity_name kind n with
    | .ok () => none
    | .error e => some e)

/-- HashMap::insert on the results map: replace the binding if the key is
present, append it otherwise. -/
def upsert {α : Type} (m : List (String × α)) (k : String) (v : α) :
    List (String × α) :=
  match m with
  | [] => [(k, v)]
  | (k₁, v₁) :: rest => if k₁ = k then (k, v) :: rest else (k₁, v₁) :: upsert rest k v

instance {ε α : Type} [DecidableEq ε] [DecidableEq α] : DecidableEq (Except ε α) :=
  fun x y =>
    match x, y with
    | .ok a, .ok b => if h : a = b then .isTrue (by rw [h]) else .isFalse (by simp [h])
    | .ok _, .error _ => .isFalse (by simp)
    | .error _, .ok _ => .isFalse (by simp)
    | .error e, .error f => if h : e = f then .isTrue (by rw [h]) else .isFalse (by simp [h])

/-- What a client call reports in the model: its result, the metric events
recorded, the cache writes performed, and the name lists of the transport
gate calls it caused. -/
structure GatesOutcome where
  result : Except StatsigError (List (String × Bool))
  events : List MetricEvent
  writes : List (CacheKey × EvaluationResult)
  calls : List (List String)
deriving DecidableEq

/-- One iteration of the cache-probe loop of check_gates (lib.rs lines
258-269): a hit records the stored gate value under the probed name, a miss
adds the name to the missing list. -/
def gatesProbeStep (cache : CacheKey → Option EvaluationResult) (u : User)
    (acc : List (String × Bool) × List String × List MetricEvent)
    (name : String) : List (String × Bool) × List String × List MetricEvent :=
  match cache (create_cache_key .gate name u) with
  | some (.gate gr) => (upsert acc.1 name gr.value, acc.2.1, acc.2.2 ++ [.hit])
  | some (.config _) => (acc.1, acc.2.1, acc.2.2 ++ [.hit])
  | none => (acc.1, acc.2.1 ++ [name], acc.2.2 ++ [.miss])

/-- The cache-probe loop of check_gates (lib.rs lines 258-269): returns the
results collected from hits, the missing names, and the metric events. -/
def gatesCacheProbe (cache : CacheKey → Option EvaluationResult)
    (u : User) (names : List String) :
    List (String × Bool) × List String × List MetricEvent :=
  names.foldl (gatesProbeStep cache u) ([], [], [])

/-- One iteration of the result-storing loop of check_gates (lib.rs lines
278-287): the fetched evaluation is keyed and cached under the name the
server returned. -/
def gatesStoreStep (u : User)
    (acc : List (String × Bool) × List MetricEvent × List (CacheKey × EvaluationResult))
    (r : GateEvaluationResult) :
    List (String × Bool) × List MetricEvent × List (CacheKey × EvaluationResult) :=
  (upsert acc.1 r.name r.value,
   acc.2.1 ++ [.insert],
   acc.2.2 ++ [(create_cache_key .gate r.name u, .gate r)])

/-- StatsigClient::check_gates (lib.rs lines 238-290) for one in-flight
request: early empty return, name validation, user validation, cache
probe, then one batched fetch of the missing names whose delivered reply
is the transport outcome filtered to the requested names. -/
def check_gates (emailOk : RStr → Bool)
    (cache : CacheKey → Option EvaluationResult)
    (rawFetch : List String → Except StatsigError (List GateEvaluationResult))
    (gate_names : List String) (u : User) : GatesOutcome :=
  if gate_names = [] then ⟨.ok [], [], [], []⟩
  else
    match firstNameError "gate" gate_names with
    | some e => ⟨.error e, [], [], []⟩
    | none =>
      if !validate_user emailOk u then
        ⟨.error (.userValidation (ofStr "User validation failed")), [], [], []⟩
      else
        let probe := gatesCacheProbe cache u gate_names
        if probe.2.1 = [] then ⟨.ok probe.1, probe.2.2, [], []⟩
        else
          match (rawFetch probe.2.1).map
              (fun rs => rs.filter (fun r => probe.2.1.contains r.name)) with
          | .error e => ⟨.error e, probe.2.2, [], [probe.2.1]⟩
          | .ok gate_results =>
            let fin := gate_results.foldl (gatesStoreStep u) (probe.1, probe.2.2, [])
            ⟨.ok fin.1, fin.2.1, fin.2.2, [probe.2.1]⟩

/-- HashMap::into_values().next() on a results map. -/
def firstValue {α : Type} (m : List (String × α)) : Option α :=
  m.head?.map Prod.snd

/-- StatsigClient::check_gate (lib.rs lines 217-221): the first value of
the singleton plural lookup, defaulting to false. -/
def check_gate (emailOk : RStr → Bool)
    (cache : CacheKey → Option EvaluationResult)
    (rawFetch : List String → Except StatsigError (List GateEvaluationResult))
    (gate_name : String) (u : User) : Except StatsigError Bool :=
  (check_gates emailOk cache rawFetch [gate_name] u).result.map
    (fun m => (firstValue m).getD false)

/-- Outcome record for the config path; calls lists the names of the
one-per-name transport get_config calls issued. -/
structure ConfigsOutcome where
  result : Except StatsigError (List (String × ConfigEvaluationResult))
  events : List MetricEvent
  writes : List (CacheKey × EvaluationResult)
  calls : List String
deriving DecidableEq

/-- BatchProcessor::fetch_configs_from_api (batch.rs lines 175-188): one
transport call per name, aborting at the first error; also reports which
calls were issued. -/
def fetchConfigs (rawGetConfig : String → Except StatsigError ConfigEvaluationResult) :
    List String → Except StatsigError (List ConfigEvaluationResult) × List String
  | [] => (.ok [], [])
  | n :: rest =>
    match rawGetConfig n with
    | .error e => (.error e, [n])
    | .ok r =>
      let next := fetchConfigs rawGetConfig rest
      ((next.1).map (r :: ·), n :: next.2)

/-- One iteration of the cache-probe loop of get_config_evaluations
(lib.rs lines 378-389). -/
def configsProbeStep (cache : CacheKey → Option EvaluationResult) (u : User)
    (acc : List (String × ConfigEvaluationResult) × List String × List MetricEvent)
    (name : String) :
    List (String × ConfigEvaluationResult) × List String × List MetricEvent :=
  match cache (create_cache_key .config name u) with
  | some (.config cr) => (upsert acc.1 name cr, acc.2.1, acc.2.2 ++ [.hit])
  | some (.gate _) => (acc.1, acc.2.1, acc.2.2 ++ [.hit])
  | none => (acc.1, acc.2.1 ++ [name], acc.2.2 ++ [.miss])

/-- The cache-probe loop of get_config_evaluations (lib.rs lines 378-389). -/
def configsCacheProbe (cache : CacheKey → Option EvaluationResult)
    (u : User) (names : List String) :
    List (String × ConfigEvaluationResult) × List String × List MetricEvent :=
  names.foldl (configsProbeStep cache u) ([], [], [])

/-- One iteration of the result-storing loop of get_config_evaluations
(lib.rs lines 398-407): the fetched evaluation is keyed and cached under
the name the server returned, not the requested name. -/
def configsStoreStep (u : User)
    (acc : List (String × ConfigEvaluationResult) × List MetricEvent
      × List (CacheKey × EvaluationResult))
    (r : ConfigEvaluationResult) :
    List (String × ConfigEvaluationResult) × List MetricEvent
      × List (CacheKey × EvaluationResult) :=
  (upsert acc.1 r.name r,
   acc.2.1 ++ [.insert],
   acc.2.2 ++ [(create_cache_key .config r.name u, .config r)])

/-- StatsigClient::get_config_evaluations (lib.rs lines 358-410) for one
in-flight request. Fetched results are keyed by the name the server
returned (lib.rs line 406), not the requested name. -/
def get_config_evaluations (emailOk : RStr → Bool)
    (cache : CacheKey → Option EvaluationResult)
    (rawGetConfig : String → Except StatsigError ConfigEvaluationResult)
    (config_names : List String) (u : User) : ConfigsOutcome :=
  if config_names = [] then ⟨.ok [], [], [], []⟩
  else
    match firstNameError "config" config_names with
    | some e => ⟨.error e, [], [], []⟩
    | none =>
      if !validate_user emailOk u then
        ⟨.error (.userValidation (ofStr "User validation failed")), [], [], []⟩
      else
        let probe := configsCacheProbe cache u config_names
        if probe.2.1 = [] then ⟨.ok probe.1, probe.2.2, [], []⟩
        else
          let fetched := fetchConfigs rawGetConfig probe.2.1
          match fetched.1 with
          | .error e => ⟨.error e, probe.2.2, [], fetched.2⟩
          | .ok config_results =>
            let fin := config_results.foldl (configsStoreStep u) (probe.1, probe.2.2, [])
            ⟨.ok fin.1, fin.2.1, fin.2.2, fetched.2⟩

/-- StatsigClient::get_configs (lib.rs lines 346-353). -/
def get_configs (emailOk : RStr → Bool)
    (cache : CacheKey → Option EvaluationResult)
    (rawGetConfig : String → Except StatsigError ConfigEvaluationResult)
    (config_names : List String) (u : User) :
    Except StatsigError (List (String × JsonValue)) :=
  (get_config_evaluations emailOk cache rawGetConfig config_names u).result.map
    (fun m => m.map (fun p => (p.1, p.2.value)))

/-- StatsigClient::get_config (lib.rs lines 308-312): the first value of
the singleton plural lookup, defaulting to Value::Null. -/
def get_config (emailOk : RStr → Bool)
    (cache : CacheKey → Option EvaluationResult)
    (rawGetConfig : String → Except StatsigError ConfigEvaluationResult)
    (config_name : String) (u : User) : Except StatsigError JsonValue :=
  (get_configs emailOk cache rawGetConfig [config_name] u).map
    (fun m => (firstValue m).getD .null)

/-! ### Cache metrics (src/cache_metrics.rs)

The atomic u64 counters are modelled as naturals (overflow of a u64 event
counter is unreachable in any run the claims quantify over); the f64 hit
ratio is modelled as an exact rational. -/

/-- The counter state of CacheMetrics. -/
structure CacheMetrics where
  hits : Nat
  misses : Nat
  inserts : Nat
  evictions : Nat
deriving DecidableEq

/-- The operations CacheMetrics exposes for updating counters. -/
inductive MetricOp where
  | recordHit
  | recordMiss
  | recordInsert
  | recordEviction
  | reset
deriving DecidableEq

/-- CacheMetrics::new. -/
def metricsNew : CacheMetrics := ⟨0, 0, 0, 0⟩

/-- One recording step (cache_metrics.rs lines 27-44 and 82-87). -/
def metricsStep (m : CacheMetrics) : MetricOp → CacheMetrics
  | .recordHit => { m with hits := m.hits + 1 }
  | .recordMiss => { m with misses := m.misses + 1 }
  | .recordInsert => { m with inserts := m.inserts + 1 }
  | .recordEviction => { m with evictions := m.evictions + 1 }
  | .reset => ⟨0, 0, 0, 0⟩

/-- CacheMetrics::total_requests. -/
def total_requests (m : CacheMetrics) : Nat := m.hits + m.misses

/-- CacheMetrics::hit_ratio (cache_metrics.rs lines 72-79), with the f64
arithmetic carried out exactly in the rationals. -/
def hit_ratio (m : CacheMetrics) : ℚ :=
  if total_requests m = 0 then 0
  else ((m.hits : ℚ) / (total_requests m : ℚ)) * 100

/-- CacheMetricsSummary from src/cache_metrics.rs. -/
structure CacheMetricsSummary where
  hits : Nat
  misses : Nat
  inserts : Nat
  evictions : Nat
  total_requests : Nat
  hit_ratio : ℚ
deriving DecidableEq

/-- CacheMetrics::summary. -/
def metricsSummary (m : CacheMetrics) : CacheMetricsSummary :=
  ⟨m.hits, m.misses, m.inserts, m.evictions, total_requests m, hit_ratio m⟩

/-! ### Concrete inputs for the individual claims -/

/-- A user with user_id u and the custom_ids map containing a ↦ 1 and
b ↦ 2, iterated in that order. -/
def userCidAB : User :=
  { User.default with
    user_id := some (ofStr "u")
    custom_ids := some [(ofStr "a", ofStr "1"), (ofStr "b", ofStr "2")] }

/-- The same user with the same custom_ids map iterated the other way
around, as a second HashMap instance with its own seed may well do. -/
def userCidBA : User :=
  { User.default with
    user_id := some (ofStr "u")
    custom_ids := some [(ofStr "b", ofStr "2"), (ofStr "a", ofStr "1")] }

/-! ### C1 (src/user.rs, User::hash_for_cache) -/

set_option maxRecDepth 10000 in
/-- C1: the claim states that two User values with equal user_id, email and
custom_ids-as-unordered-map always hash identically. The code iterates the
custom_ids HashMap in its instance-dependent order, so two users whose
custom_ids maps hold the same two bindings in different iteration orders
feed different byte streams to the digest and hash differently. -/
theorem hash_for_cache_depends_on_custom_ids_order :
    userCidAB.user_id = userCidBA.user_id
    ∧ userCidAB.email = userCidBA.email
    ∧ (∃ l₁ l₂, userCidAB.custom_ids = some l₁ ∧ userCidBA.custom_ids = some l₂
        ∧ l₁.Perm l₂ ∧ (l₁.map Prod.fst).Nodup)
    ∧ hash_for_cache userCidAB ≠ hash_for_cache userCidBA := by
  refine ⟨rfl, rfl, ⟨_, _, rfl, rfl, ?_, by decide⟩, by decide⟩
  exact List.Perm.swap _ _ _

/-! ### C9 (src/user.rs, User::hash_for_cache concatenates without
separators) -/

/-- C9: hash_for_cache concatenates identifier bytes with no separators or
field tags, so for all strings x and y, user_id x ++ y with no email hashes
exactly like user_id x with email y (all remaining fields equal). -/
theorem hash_for_cache_concat_ambiguity (x y : RStr)
    (ip ua country locale av : Option RStr)
    (custom priv : Option (List (RStr × JsonValue)))
    (cids : Option (List (RStr × RStr))) (env : Option StatsigEnvironment) :
    hash_for_cache
        ⟨some (x ++ y), none, ip, ua, country, locale, av, custom, priv, cids, env⟩
      = hash_for_cache
        ⟨some x, some y, ip, ua, country, locale, av, custom, priv, cids, env⟩ := by
  simp [hash_for_cache, hashInput, rstrBytes_append, List.append_assoc]

/-! ### C8 (src/cache_metrics.rs) -/

/-- C8: the summary reports total_requests as hits plus misses and the hit
ratio as hits / (hits + misses) * 100, with 0 when no requests happened
yet (the f64 arithmetic carried out exactly in the rationals). -/
theorem metricsSummary_ratio (m : CacheMetrics) :
    CacheMetricsSummary.total_requests (metricsSummary m)
        = CacheMetricsSummary.hits (metricsSummary m)
          + CacheMetricsSummary.misses (metricsSummary m)
    ∧ CacheMetricsSummary.hit_ratio (metricsSummary m)
        = (if CacheMetricsSummary.hits (metricsSummary m)
              + CacheMetricsSummary.misses (metricsSummary m) = 0 then 0
           else ((CacheMetricsSummary.hits (metricsSummary m) : ℚ)
              / ((CacheMetricsSummary.hits (metricsSummary m)
                  + CacheMetricsSummary.misses (metricsSummary m) : Nat) : ℚ)) * 100) := by
  unfold metricsSummary total_requests hit_ratio
  exact ⟨rfl, rfl⟩

/-! ### C10 (src/lib.rs, empty-name early returns) -/

/-- C10: for every user, valid or not, and whatever the cache, transport
and email validator do, checkGates and getConfigEvaluations with an empty
name list return an empty map successfully with no metric events, no cache
writes and no transport calls. -/
theorem empty_names_short_circuit (emailOk : RStr → Bool)
    (cache : CacheKey → Option EvaluationResult)
    (rawFetch : List String → Except StatsigError (List GateEvaluationResult))
    (rawGetConfig : String → Except StatsigError ConfigEvaluationResult)
    (u : User) :
    check_gates emailOk cache rawFetch [] u
        = ⟨.ok [], [], [], []⟩
    ∧ get_config_evaluations emailOk cache rawGetConfig [] u
        = ⟨.ok [], [], [], []⟩ :=
  ⟨rfl, rfl⟩

/-! ### C6 (src/config.rs, StatsigClientConfig::validate) -/

/-- A configuration whose every field satisfies the claim (positive
timeout among them) but whose timeout is half a second. -/
def cfgHalfSecondTimeout : StatsigClientConfig :=
  ⟨"secret-key", "https://api.statsig.com", "https://events.statsigapi.net",
   500000000, 3, 1000000000, 300000000000, 10000, 10, 100000000, false, false,
   "rust-client", "0.1.0"⟩

/-- C6 counterexample: the claim says validation succeeds if and only if
the API key and base URL are non-empty and timeout, retries, batch size
and TTL are positive; this configuration satisfies all of that, yet
validate rejects it, because the source tests Duration::as_secs() == 0 and
a positive 0.5 s timeout has as_secs() = 0. -/
theorem configValidate_rejects_subsecond_timeout :
    (cfgHalfSecondTimeout.api_key ≠ "" ∧ cfgHalfSecondTimeout.base_url ≠ ""
      ∧ 0 < cfgHalfSecondTimeout.timeout ∧ 0 < cfgHalfSecondTimeout.retry_attempts
      ∧ 0 < cfgHalfSecondTimeout.batch_size ∧ 0 < cfgHalfSecondTimeout.cache_ttl)
    ∧ configValidate cfgHalfSecondTimeout
        = .error (.configuration (ofStr "Timeout must be greater than 0")) := by
  decide

/-- C6 amended: validation succeeds iff the API key and base URL are
non-empty, retry attempts and batch size are positive, and timeout and
cache TTL are at least one whole second (their as_secs() is positive);
every rejection is a Configuration error, and with_config returns exactly
what validation decided before doing any other work. -/
theorem configValidate_characterization (c : StatsigClientConfig) :
    (configValidate c = .ok () ↔
      (c.api_key ≠ "" ∧ c.base_url ≠ "" ∧ 1000000000 ≤ c.timeout
        ∧ 0 < c.retry_attempts ∧ 0 < c.batch_size ∧ 1000000000 ≤ c.cache_ttl))
    ∧ (configValidate c = .ok ()
        ∨ ∃ msg, configValidate c = .error (.configuration msg))
    ∧ with_config c = configValidate c := by
  refine ⟨?_, ?_, ?_⟩
  · unfold configValidate
    split_ifs with h1 h2 h3 h4 h5 h6 <;> simp_all <;> omega
  · unfold configValidate
    split_ifs <;> simp
  · unfold with_config
    split <;> simp_all

/-- C6 witness: the characterization applied to the default-like
configuration built by StatsigClientConfig::new. -/
theorem configValidate_characterization_witness :
    configValidate
      ⟨"secret-key", "https://api.statsig.com", "https://events.statsigapi.net",
       30000000000, 3, 1000000000, 300000000000, 10000, 10, 100000000, false,
       false, "rust-client", "0.1.0"⟩ = .ok () :=
  (configValidate_characterization _).1.mpr
    ⟨by decide, by decide, by decide, by decide, by decide, by decide⟩

/-! ### C4 (src/transport.rs, No429RetryStrategy) -/

/-- C4: the generic strategy is Transient exactly on 5xx or 408 responses
and connection-level failures; 429 is Fatal, 2xx yields no retry decision,
and every other status is Fatal. -/
theorem no429Handle_classification (r : RequestOutcome) :
    (no429Handle r = some .transient ↔
      ((∃ s, r = .ok s ∧ ((500 ≤ s ∧ s ≤ 599) ∨ s = 408)) ∨ r = .failure true))
    ∧ no429Handle (.ok 429) = some .fatal
    ∧ (∀ s, 200 ≤ s → s ≤ 299 → no429Handle (.ok s) = none)
    ∧ (∀ s, ¬(200 ≤ s ∧ s ≤ 299) → ¬((500 ≤ s ∧ s ≤ 599) ∨ s = 408) →
        no429Handle (.ok s) = some .fatal) := by
  refine ⟨?_, by decide, ?_, ?_⟩
  · cases r with
    | ok s =>
      simp only [no429Handle]
      split_ifs <;> simp_all
    | failure conn =>
      cases conn <;> simp [no429Handle, default_on_request_failure]
  · intro s h₁ h₂
    have hc : 200 ≤ s ∧ s ≤ 299 := ⟨h₁, h₂⟩
    have ha : ¬ s = 429 := by omega
    have hb : ¬ ((500 ≤ s ∧ s ≤ 599) ∨ s = 408) := by omega
    simp [no429Handle, ha, hb, hc]
  · intro s h₁ h₂
    by_cases ha : s = 429
    · simp [no429Handle, ha]
    · simp [no429Handle, ha, h₁, h₂]

/-- C4 witness: the classification applied to a 503 response, a 204
response and a 404 response. -/
theorem no429Handle_classification_witness :
    no429Handle (.ok 503) = some .transient
    ∧ no429Handle (.ok 204) = none
    ∧ no429Handle (.ok 404) = some .fatal :=
  ⟨(no429Handle_classification (.ok 503)).1.mpr (.inl ⟨503, rfl, by omega⟩),
   (no429Handle_classification (.ok 204)).2.2.1 204 (by omega) (by omega),
   (no429Handle_classification (.ok 404)).2.2.2 404 (by omega) (by omega)⟩

/-! ### C5 (src/response.rs, truncation) -/

/-- A successful-to-read body of 667 euro signs: 667 characters, 2001
UTF-8 bytes. -/
def euroBody : RStr := List.replicate 667 8364

lemma rstrBytes_replicate (n c : Nat) :
    rstrBytes (List.replicate n c) = (List.replicate n (utf8Bytes c)).flatten := by
  induction n with
  | zero => rfl
  | succ m ih => simp [List.replicate_succ, rstrBytes, ih]

lemma rstrByteLen_replicate (n c : Nat) :
    rstrByteLen (List.replicate n c) = n * (utf8Bytes c).length := by
  simp [rstrByteLen, rstrBytes_replicate, List.length_flatten, Nat.mul_comm]

/-- Taking 3k + 2 bytes from more than k three-byte characters always cuts
a character open. -/
lemma takeBytes_replicate_euro (k : Nat) :
    ∀ n, k < n → takeBytes (3 * k + 2) (List.replicate n 8364) = none := by
  induction k with
  | zero =>
    intro n hn
    cases n with
    | zero => omega
    | succ m => simp [List.replicate_succ, takeBytes, utf8Len]
  | succ k ih =>
    intro n hn
    cases n with
    | zero => omega
    | succ m =>
      have h1 : 3 * (k + 1) + 2 = (3 * k + 2 + 2) + 1 := by omega
      rw [h1, List.replicate_succ]
      simp only [takeBytes, utf8Len]
      norm_num
      rw [show 3 * k + 2 + 2 + 1 - 3 = 3 * k + 2 by omega]
      simp [ih m (by omega)]

/-- C5: the claim says a non-2xx body is truncated to at most 2000
characters. The source instead slices at byte index 2000; on this
667-character body that index falls inside a character, so the slice
panics (modelled as none) where the claim requires an Api error carrying
the 667-character body unchanged (667 is at most 2000 characters). -/
theorem truncate_panics_inside_character :
    euroBody.length = 667
    ∧ rstrByteLen euroBody = 2001
    ∧ truncateBody euroBody = none
    ∧ error_from_response 500 none euroBody = none
    ∧ handleResponse (fun _ => Except.error (ofStr "expected value"))
        200 none euroBody = (none : Option (Except StatsigError JsonValue)) := by
  have hlen : rstrByteLen euroBody = 2001 := by
    rw [euroBody, rstrByteLen_replicate]
    decide
  have htrunc : truncateBody euroBody = none := by
    rw [truncateBody, hlen]
    norm_num
    rw [euroBody, show (2000 : Nat) = 3 * 666 + 2 by omega,
      takeBytes_replicate_euro 666 667 (by omega)]
  refine ⟨by rw [euroBody, List.length_replicate], hlen, htrunc, ?_, ?_⟩
  · simp only [error_from_response, htrunc]
    norm_num
  · simp only [handleResponse, htrunc]
    norm_num

/-! ### C3 (src/transport.rs, RateLimitRetryMiddleware) -/

lemma rlGo_spec (next : Nat → RlResponse) (pd : String → Option Nat)
    (now fallback maxRetries : Nat) :
    ∀ fuel n, 1 ≤ fuel → n + fuel = maxRetries + 1 →
      (rlGo next pd now fallback maxRetries fuel n).1
          = next (rlGo next pd now fallback maxRetries fuel n).2.2
      ∧ n ≤ (rlGo next pd now fallback maxRetries fuel n).2.2
      ∧ (rlGo next pd now fallback maxRetries fuel n).2.2 ≤ maxRetries
      ∧ (∀ i, n ≤ i → i < (rlGo next pd now fallback maxRetries fuel n).2.2 →
          (next i).status = 429)
      ∧ ((next (rlGo next pd now fallback maxRetries fuel n).2.2).status = 429 →
          (rlGo next pd now fallback maxRetries fuel n).2.2 = maxRetries)
      ∧ (rlGo next pd now fallback maxRetries fuel n).2.1
          = (List.range' n ((rlGo next pd now fallback maxRetries fuel n).2.2 - n)).map
              (fun i => retryDelay pd now fallback (next i)) := by
  intro fuel
  induction fuel with
  | zero => intro n h1 _; exact absurd h1 (by omega)
  | succ fuel ih =>
    intro n _ hsum
    by_cases h429 : (next n).status = 429
    · by_cases hmax : maxRetries ≤ n
      · have hn : n = maxRetries := by omega
        simp only [rlGo, if_neg (not_not_intro h429), if_pos hmax]
        refine ⟨by trivial, by first | trivial | omega, by first | trivial | omega,
          ?_, fun _ => hn, by simp⟩
        intro i hni hi
        omega
      · have hfuel : 1 ≤ fuel := by omega
        have hsum2 : (n + 1) + fuel = maxRetries + 1 := by omega
        obtain ⟨ih1, ih2, ih3, ih4, ih5, ih6⟩ := ih (n + 1) hfuel hsum2
        simp only [rlGo, if_neg (not_not_intro h429), if_neg hmax]
        refine ⟨ih1, by omega, ih3, ?_, ih5, ?_⟩
        · intro i hni hi
          by_cases hin : i = n
          · rw [hin]; exact h429
          · exact ih4 i (by omega) hi
        · have hk : (rlGo next pd now fallback maxRetries fuel (n + 1)).2.2 - n
              = ((rlGo next pd now fallback maxRetries fuel (n + 1)).2.2 - (n + 1)) + 1 := by
            omega
          rw [hk, List.range'_succ, List.map_cons, ih6]
    · simp only [rlGo, if_pos h429]
      refine ⟨by trivial, by first | trivial | omega, by first | trivial | omega,
        ?_, fun hs => absurd hs h429, by simp⟩
      intro i hni hi
      omega

/-- C3 amended: the middleware re-issues the same request while the status
is 429, up to maxRetries re-issues, and then returns the last rate-limited
response; before each re-issue it sleeps the parsed Retry-After duration
(an integer value counts as whole seconds; an HTTP-date at or after now
counts as the difference to now; an HTTP-date strictly in the past parses
to nothing) and otherwise sleeps the configured fallback delay; the
response handler then maps a final 429 to RateLimited carrying the integer
Retry-After value, or 60 when it has none. The claim's floored-at-zero
reading of a past HTTP-date does not hold: a past date is treated as
unparseable and the fallback delay is used (see the counterexample). -/
theorem rateLimitHandle_characterization (next : Nat → RlResponse)
    (pd : String → Option Nat) (now fallback maxRetries : Nat) :
    (rateLimitHandle next pd now fallback maxRetries).1
        = next (rateLimitHandle next pd now fallback maxRetries).2.2
    ∧ (rateLimitHandle next pd now fallback maxRetries).2.2 ≤ maxRetries
    ∧ (∀ i, i < (rateLimitHandle next pd now fallback maxRetries).2.2 →
        (next i).status = 429)
    ∧ ((next (rateLimitHandle next pd now fallback maxRetries).2.2).status = 429 →
        (rateLimitHandle next pd now fallback maxRetries).2.2 = maxRetries)
    ∧ (rateLimitHandle next pd now fallback maxRetries).2.1
        = (List.range (rateLimitHandle next pd now fallback maxRetries).2.2).map
            (fun i => retryDelay pd now fallback (next i))
    ∧ (∀ v seconds, parseU64 v = some seconds →
        parse_retry_after pd now v = some (seconds * 1000000000))
    ∧ (∀ v t, parseU64 v = none → pd v = some t → now ≤ t →
        parse_retry_after pd now v = some (t - now))
    ∧ (∀ v t, parseU64 v = none → pd v = some t → t < now →
        parse_retry_after pd now v = none)
    ∧ (∀ hdr body, error_from_response 429 hdr body
        = some (.rateLimited ((hdr.bind parseU64).getD 60))) := by
  obtain ⟨h1, h2, h3, h4, h5, h6⟩ :=
    rlGo_spec next pd now fallback maxRetries (maxRetries + 1) 0 (by omega) (by omega)
  refine ⟨h1, h3, ?_, h5, ?_, ?_, ?_, ?_, ?_⟩
  · intro i hi
    exact h4 i (by omega) hi
  · unfold rateLimitHandle
    rw [h6, Nat.sub_zero, List.range_eq_range']
  · intro v seconds hsec
    simp [parse_retry_after, hsec]
  · intro v t hu hpd hle
    simp [parse_retry_after, hu, hpd, hle]
  · intro v t hu hpd hlt
    simp [parse_retry_after, hu, hpd]
    omega
  · intro hdr body
    simp [error_from_response]

/-- The instant that the httpdate parser assigns to the epoch date header,
in nanoseconds. -/
def pdEpoch : String → Option Nat :=
  fun s => if s = "Thu, 01 Jan 1970 00:00:00 GMT" then some 0 else none

/-- A rate-limited response carrying a Retry-After HTTP-date lying in the
past. -/
def resp429Past : RlResponse :=
  ⟨429, some "Thu, 01 Jan 1970 00:00:00 GMT"⟩

/-- C3 counterexample: the claim says a parseable HTTP-date Retry-After is
converted to a duration relative to now floored at zero, so with now one
second after the epoch and a Retry-After of the epoch date the middleware
should wait 0; the code instead treats the past date as unparseable
(SystemTime::duration_since fails) and sleeps the 0.5 s fallback delay. -/
theorem rateLimit_past_date_uses_fallback :
    (rateLimitHandle (fun _ => resp429Past) pdEpoch 1000000000 500000000 1).2.1
        = [500000000]
    ∧ (rateLimitHandle (fun _ => resp429Past) pdEpoch 1000000000 500000000 1).1.status
        = 429
    ∧ (500000000 : Nat) ≠ 0 := by
  decide

/-- C3 witness: the characterization applied to a run that always answers
429 with an integer Retry-After of 2 seconds and one allowed retry. -/
theorem rateLimitHandle_characterization_witness :
    (RlResponse.mk 429 (some "2")).status = 429
    ∧ parse_retry_after pdEpoch 1000000000 "2" = some 2000000000 := by
  have h := rateLimitHandle_characterization (fun _ => ⟨429, some "2"⟩)
    pdEpoch 1000000000 500000000 1
  exact ⟨h.2.2.1 0 (by decide), h.2.2.2.2.2.1 "2" 2 (by decide)⟩

/-! ### C2 (src/batch.rs, process_gate_batch) -/

lemma gkFold_mem_mono (l : List GateBatchRequest) :
    ∀ (acc : List String) (h : String), h ∈ acc → h ∈ l.foldl gkStep acc := by
  induction l with
  | nil => intro acc h hm; simpa using hm
  | cons r rs ih =>
    intro acc h hm
    rw [List.foldl_cons]
    apply ih
    unfold gkStep
    split_ifs
    · exact hm
    · exact List.mem_append_left _ hm

lemma gkFold_covers (l : List GateBatchRequest) :
    ∀ (acc : List String) (r : GateBatchRequest), r ∈ l →
      hash_user_for_batch r.user ∈ l.foldl gkStep acc := by
  induction l with
  | nil => intro acc r hr; cases hr
  | cons q qs ih =>
    intro acc r hr
    rw [List.foldl_cons]
    rcases List.mem_cons.mp hr with hq | hq
    · subst hq
      apply gkFold_mem_mono
      unfold gkStep
      split_ifs with hc
      · simpa using hc
      · simp
    · exact ih _ r hq

lemma gkFold_nodup (l : List GateBatchRequest) :
    ∀ acc : List String, acc.Nodup → (l.foldl gkStep acc).Nodup := by
  induction l with
  | nil => intro acc ha; simpa using ha
  | cons q qs ih =>
    intro acc ha
    rw [List.foldl_cons]
    apply ih
    unfold gkStep
    split_ifs with hc
    · exact ha
    · simp only [List.nodup_append, List.nodup_cons, List.not_mem_nil,
        not_false_iff, List.nodup_nil, and_true, true_and]
      refine ⟨ha, ?_⟩
      intro a haa
      simp only [List.mem_singleton]
      intro heq
      subst heq
      exact absurd haa (by simpa using hc)

lemma gkFold_source (l : List GateBatchRequest) :
    ∀ (acc : List String) (h : String), h ∈ l.foldl gkStep acc →
      h ∈ acc ∨ ∃ r, r ∈ l ∧ hash_user_for_batch r.user = h := by
  induction l with
  | nil => intro acc h hm; exact .inl (by simpa using hm)
  | cons q qs ih =>
    intro acc h hm
    rw [List.foldl_cons] at hm
    rcases ih _ h hm with hacc | ⟨r, hrmem, hrh⟩
    · unfold gkStep at hacc
      split_ifs at hacc with hc
      · exact .inl hacc
      · rcases List.mem_append.mp hacc with h1 | h1
        · exact .inl h1
        · exact .inr ⟨q, List.mem_cons_self _ _, (List.mem_singleton.mp h1).symm⟩
    · exact .inr ⟨r, List.mem_cons_of_mem _ hrmem, hrh⟩

lemma groupKeys_nodup (reqs : List GateBatchRequest) : (groupKeys reqs).Nodup :=
  gkFold_nodup reqs [] (by simp)

lemma groupKeys_covers (reqs : List GateBatchRequest) (r : GateBatchRequest)
    (hr : r ∈ reqs) : hash_user_for_batch r.user ∈ groupKeys reqs :=
  gkFold_covers reqs [] r hr

lemma groupKeys_source (reqs : List GateBatchRequest) (h : String)
    (hh : h ∈ groupKeys reqs) : ∃ r, r ∈ reqs ∧ hash_user_for_batch r.user = h := by
  rcases gkFold_source reqs [] h hh with h1 | h1
  · cases h1
  · exact h1

lemma mem_groupOf_self (reqs : List GateBatchRequest) (r : GateBatchRequest)
    (hr : r ∈ reqs) : r ∈ groupOf reqs (hash_user_for_batch r.user) := by
  unfold groupOf
  rw [List.mem_filter]
  exact ⟨hr, by simp⟩

lemma groupOf_head_some (reqs : List GateBatchRequest) (h : String)
    (hh : h ∈ groupKeys reqs) : ∃ fst, (groupOf reqs h).head? = some fst := by
  obtain ⟨r, hrmem, hrh⟩ := groupKeys_source reqs h hh
  have hmem : r ∈ groupOf reqs h := by
    unfold groupOf
    rw [List.mem_filter]
    exact ⟨hrmem, by simp [hrh]⟩
  cases hg : groupOf reqs h with
  | nil => rw [hg] at hmem; cases hmem
  | cons fst rest => exact ⟨fst, rfl⟩

lemma count_filter_hash (l : List GateBatchRequest) (h : String)
    (x : GateBatchRequest) :
    (l.filter (fun a => hash_user_for_batch a.user == h)).count x
      = if hash_user_for_batch x.user = h then l.count x else 0 := by
  induction l with
  | nil => simp
  | cons b bs ih =>
    by_cases hb : hash_user_for_batch b.user = h
    · rw [List.filter_cons_of_pos (by simp [hb])]
      by_cases hxb : x = b
      · subst hxb
        simp [List.count_cons_self, ih, hb]
      · rw [List.count_cons_of_ne hxb, List.count_cons_of_ne hxb, ih]
    · rw [List.filter_cons_of_neg (by simp [hb])]
      by_cases hxb : x = b
      · subst hxb
        simp [ih, hb]
      · rw [List.count_cons_of_ne hxb, ih]

lemma sum_if_counts (target : String) (c : Nat) :
    ∀ keys : List String, keys.Nodup → target ∈ keys →
      (keys.map (fun h => if target = h then c else 0)).sum = c := by
  intro keys
  induction keys with
  | nil => intro _ hm; cases hm
  | cons k ks ih =>
    intro hnd hm
    rw [List.map_cons, List.sum_cons]
    by_cases hk : target = k
    · subst hk
      have hnot : target ∉ ks := (List.nodup_cons.mp hnd).1
      have hz : (ks.map (fun h => if target = h then c else 0)).sum = 0 := by
        apply List.sum_eq_zero
        intro x hx
        rcases List.mem_map.mp hx with ⟨h, hmem, heq⟩
        have hne : ¬ target = h := fun hth => hnot (hth ▸ hmem)
        simp [← heq, hne]
      simp [hz]
    · have hm2 : target ∈ ks := by
        rcases List.mem_cons.mp hm with h1 | h1
        · exact absurd h1 hk
        · exact h1
      rw [if_neg hk, ih (List.nodup_cons.mp hnd).2 hm2]
      omega

lemma flatten_groups_perm (reqs : List GateBatchRequest) :
    ((groupKeys reqs).map (fun h => groupOf reqs h)).flatten.Perm reqs := by
  rw [List.perm_iff_count]
  intro x
  rw [List.count_flatten, List.map_map]
  have hcongr : (groupKeys reqs).map (List.count x ∘ fun h => groupOf reqs h)
      = (groupKeys reqs).map
          (fun h => if hash_user_for_batch x.user = h then reqs.count x else 0) := by
    apply List.map_congr_left
    intro h _
    simp only [Function.comp_apply]
    exact count_filter_hash reqs h x
  rw [hcongr]
  by_cases hx : x ∈ reqs
  · exact sum_if_counts _ _ _ (groupKeys_nodup reqs) (groupKeys_covers reqs x hx)
  · rw [List.count_eq_zero_of_not_mem hx]
    apply List.sum_eq_zero
    intro y hy
    rcases List.mem_map.mp hy with ⟨h, _, heq⟩
    rw [← heq]
    split_ifs <;> rfl

lemma groupReplies_ids (g : List GateBatchRequest)
    (outcome : Except StatsigError (List GateEvaluationResult)) :
    (groupReplies g outcome).map Prod.fst = g.map (fun r => r.id) := by
  cases outcome <;> simp [groupReplies]

lemma replies_ids_eq (transport : List String → User →
      Except StatsigError (List GateEvaluationResult))
    (reqs : List GateBatchRequest) :
    ((process_gate_batch transport reqs).2.map Prod.fst)
      = ((groupKeys reqs).map (fun h => (groupOf reqs h).map (fun r => r.id))).flatten := by
  unfold process_gate_batch
  rw [List.map_flatten, List.map_map, List.map_map]
  congr 1
  apply List.map_congr_left
  intro h _
  simp only [Function.comp_apply]
  cases hg : (groupOf reqs h).head? with
  | none =>
    have : groupOf reqs h = [] := by
      cases hgo : groupOf reqs h with
      | nil => rfl
      | cons a l => rw [hgo] at hg; cases hg
    simp [this]
  | some fst => simp [groupReplies_ids]

/-- C2: the exactly-once fan-out of process_gate_batch: the multiset of
reply-channel ids served equals the multiset of pending request ids. -/
lemma replies_ids_perm (transport : List String → User →
      Except StatsigError (List GateEvaluationResult))
    (reqs : List GateBatchRequest) :
    ((process_gate_batch transport reqs).2.map Prod.fst).Perm
      (reqs.map (fun r => r.id)) := by
  rw [replies_ids_eq]
  have h1 := (flatten_groups_perm reqs).map (fun r => r.id)
  rw [List.map_flatten, List.map_map] at h1
  exact h1

/-- C2 amended: the flush partitions the pending gate requests by user
identity hash; each pending request belongs to the group of its hash,
whose first member supplies the user for the group's single transport
call; that call carries the in-order concatenation of the gate names the
group's requests asked for, with duplicates kept (not the deduplicated
union the claim states); on success each request of the group is answered
with exactly the results whose names it asked for, on failure every
request of the group receives the same error; and across the whole flush
each request id is answered exactly once. -/
theorem process_gate_batch_characterization
    (transport : List String → User → Except StatsigError (List GateEvaluationResult))
    (reqs : List GateBatchRequest) (r : GateBatchRequest) (hr : r ∈ reqs) :
    ((process_gate_batch transport reqs).2.map Prod.fst).Perm
        (reqs.map (fun q => q.id))
    ∧ (process_gate_batch transport reqs).1.length = (groupKeys reqs).length
    ∧ (groupKeys reqs).Nodup
    ∧ ∃ fst, (groupOf reqs (hash_user_for_batch r.user)).head? = some fst
        ∧ (groupGateNames (groupOf reqs (hash_user_for_batch r.user)), fst.user)
            ∈ (process_gate_batch transport reqs).1
        ∧ (∀ rs, transport (groupGateNames (groupOf reqs (hash_user_for_batch r.user)))
              fst.user = .ok rs →
            (r.id, Except.ok (rs.filter (fun res => r.gate_names.contains res.name)))
              ∈ (process_gate_batch transport reqs).2)
        ∧ (∀ e, transport (groupGateNames (groupOf reqs (hash_user_for_batch r.user)))
              fst.user = .error e →
            (r.id, Except.error e) ∈ (process_gate_batch transport reqs).2) := by
  have hkey : hash_user_for_batch r.user ∈ groupKeys reqs := groupKeys_covers reqs r hr
  obtain ⟨fst, hfst⟩ := groupOf_head_some reqs _ hkey
  have hgroupmem : groupOf reqs (hash_user_for_batch r.user)
      ∈ (groupKeys reqs).map (fun h => groupOf reqs h) :=
    List.mem_map.mpr ⟨_, hkey, rfl⟩
  have hrg : r ∈ groupOf reqs (hash_user_for_batch r.user) := mem_groupOf_self reqs r hr
  refine ⟨replies_ids_perm transport reqs, ?_, groupKeys_nodup reqs, fst, hfst, ?_, ?_, ?_⟩
  · unfold process_gate_batch
    simp only []
    rw [List.filterMap_map]
    have : ∀ ks : List String, (∀ h ∈ ks, (groupOf reqs h).head?.isSome) →
        (ks.filterMap ((fun g => g.head?.map (fun q => (groupGateNames g, q.user)))
            ∘ fun h => groupOf reqs h)).length = ks.length := by
      intro ks
      induction ks with
      | nil => intro _; rfl
      | cons k kt ih =>
        intro hall
        have hk := hall k (List.mem_cons_self _ _)
        rcases Option.isSome_iff_exists.mp hk with ⟨q, hq⟩
        rw [List.filterMap_cons]
        simp only [Function.comp_apply, hq, Option.map_some']
        rw [List.length_cons, ih (fun h hm => hall h (List.mem_cons_of_mem _ hm))]
        rfl
    apply this
    intro h hm
    obtain ⟨q, hq⟩ := groupOf_head_some reqs h hm
    simp [hq]
  · unfold process_gate_batch
    apply List.mem_filterMap.mpr
    exact ⟨groupOf reqs (hash_user_for_batch r.user), hgroupmem, by simp [hfst]⟩
  · intro rs hok
    unfold process_gate_batch
    apply List.mem_flatten.mpr
    refine ⟨groupReplies (groupOf reqs (hash_user_for_batch r.user)) (.ok rs), ?_, ?_⟩
    · apply List.mem_map.mpr
      refine ⟨groupOf reqs (hash_user_for_batch r.user), hgroupmem, ?_⟩
      rw [hfst]
      simp only []
      rw [hok]
    · unfold groupReplies
      exact List.mem_map.mpr ⟨r, hrg, rfl⟩
  · intro e herr
    unfold process_gate_batch
    apply List.mem_flatten.mpr
    refine ⟨groupReplies (groupOf reqs (hash_user_for_batch r.user)) (.error e), ?_, ?_⟩
    · apply List.mem_map.mpr
      refine ⟨groupOf reqs (hash_user_for_batch r.user), hgroupmem, ?_⟩
      rw [hfst]
      simp only []
      rw [herr]
    · unfold groupReplies
      exact List.mem_map.mpr ⟨r, hrg, rfl⟩

/-- A user with only a user id, shared by two batch requests. -/
def userU : User := { User.default with user_id := some (ofStr "u") }

set_option maxRecDepth 10000 in
/-- C2 counterexample: two pending requests for the same user, both asking
for the single gate gg, produce one transport call whose gate-name list is
the concatenation with the duplicate kept, not the deduplicated union the
claim states. -/
theorem process_gate_batch_no_dedup :
    (process_gate_batch (fun _ _ => .ok [])
        [⟨0, ["gg"], userU⟩, ⟨1, ["gg"], userU⟩]).1
      = [(["gg", "gg"], userU)]
    ∧ (["gg", "gg"] : List String) ≠ (["gg", "gg"] : List String).dedup := by
  constructor
  · rfl
  · decide

/-- C2 witness: the characterization applied to a concrete batch of one
request, whose transport call succeeds with one matching result. -/
theorem process_gate_batch_characterization_witness :
    ((process_gate_batch (fun _ _ => .ok [])
        [⟨5, ["gg"], userU⟩]).2.map Prod.fst).Perm [5] :=
  (process_gate_batch_characterization (fun _ _ => .ok [])
    [⟨5, ["gg"], userU⟩] ⟨5, ["gg"], userU⟩ (List.mem_singleton.mpr rfl)).1

/-! ### C7 (src/lib.rs, check_gate and get_config resolution) -/

lemma upsert_mem {α : Type} (m : List (String × α)) (k : String) (v : α) :
    ∀ p ∈ upsert m k v, p = (k, v) ∨ p ∈ m := by
  induction m with
  | nil => intro p hp; simp [upsert] at hp; exact .inl hp
  | cons q rest ih =>
    intro p hp
    unfold upsert at hp
    split_ifs at hp with hq
    · rcases List.mem_cons.mp hp with h1 | h1
      · exact .inl h1
      · exact .inr (List.mem_cons_of_mem _ h1)
    · rcases List.mem_cons.mp hp with h1 | h1
      · exact .inr (h1 ▸ List.mem_cons_self _ _)
      · rcases ih p h1 with h2 | h2
        · exact .inl h2
        · exact .inr (List.mem_cons_of_mem _ h2)

lemma mem_keys_upsert {α : Type} (m : List (String × α)) (k : String) (v : α) :
    ∀ a, a ∈ (upsert m k v).map Prod.fst ↔ (a = k ∨ a ∈ m.map Prod.fst) := by
  induction m with
  | nil => intro a; simp [upsert]
  | cons q rest ih =>
    intro a
    unfold upsert
    split_ifs with hq
    · subst hq
      simp
    · simp only [List.map_cons, List.mem_cons, ih a]
      tauto

lemma nodup_keys_upsert {α : Type} (m : List (String × α)) (k : String) (v : α)
    (hnd : (m.map Prod.fst).Nodup) : ((upsert m k v).map Prod.fst).Nodup := by
  induction m with
  | nil => simp [upsert]
  | cons q rest ih =>
    unfold upsert
    rw [List.map_cons, List.nodup_cons] at hnd
    split_ifs with hq
    · subst hq
      simp only [List.map_cons, List.nodup_cons]
      exact ⟨hnd.1, hnd.2⟩
    · simp only [List.map_cons, List.nodup_cons]
      refine ⟨?_, ih hnd.2⟩
      intro hmem
      rcases (mem_keys_upsert rest k v q.1).mp hmem with h1 | h1
      · exact hq h1
      · exact hnd.1 h1

/-- A map whose keys are all one name and pairwise distinct is empty or a
singleton for that name. -/
lemma map_singleton_shape {α : Type} (nm : String) (m : List (String × α))
    (hsub : ∀ p ∈ m, p.1 = nm) (hnd : (m.map Prod.fst).Nodup) :
    m = [] ∨ ∃ v, m = [(nm, v)] := by
  cases m with
  | nil => exact .inl rfl
  | cons p rest =>
    right
    have hp : p.1 = nm := hsub p (List.mem_cons_self _ _)
    have hrest : rest = [] := by
      cases rest with
      | nil => rfl
      | cons q rest2 =>
        exfalso
        have hq : q.1 = nm := hsub q (List.mem_cons_of_mem _ (List.mem_cons_self _ _))
        rw [List.map_cons, List.nodup_cons] at hnd
        exact hnd.1 (by
          rw [List.map_cons]
          exact List.mem_cons.mpr (.inl (by rw [hp, hq])))
    subst hrest
    refine ⟨p.2, ?_⟩
    rw [show p = (p.1, p.2) from rfl, hp]

/-- The invariant of the gate cache-probe loop: collected result keys and
missing names stay inside the allowed set and the keys stay distinct. -/
lemma gatesProbe_inv (cache : CacheKey → Option EvaluationResult) (u : User)
    (P : String → Prop) :
    ∀ (names : List String)
      (acc : List (String × Bool) × List String × List MetricEvent),
      (∀ p ∈ acc.1, P p.1) → (acc.1.map Prod.fst).Nodup → (∀ n ∈ acc.2.1, P n) →
      (∀ n ∈ names, P n) →
      (∀ p ∈ (names.foldl (gatesProbeStep cache u) acc).1, P p.1)
      ∧ ((names.foldl (gatesProbeStep cache u) acc).1.map Prod.fst).Nodup
      ∧ (∀ n ∈ (names.foldl (gatesProbeStep cache u) acc).2.1, P n) := by
  intro names
  induction names with
  | nil => intro acc h1 h2 h3 _; exact ⟨h1, h2, h3⟩
  | cons n ns ih =>
    intro acc h1 h2 h3 hall
    rw [List.foldl_cons]
    have hn : P n := hall n (List.mem_cons_self _ _)
    have hns : ∀ x ∈ ns, P x := fun x hx => hall x (List.mem_cons_of_mem _ hx)
    apply ih
    · unfold gatesProbeStep
      rcases hc : cache (create_cache_key .gate n u) with _ | er
      · exact h1
      · rcases er with gr | cr
        · intro p hp
          rcases upsert_mem acc.1 n gr.value p hp with h | h
          · rw [h]; exact hn
          · exact h1 p h
        · exact h1
    · unfold gatesProbeStep
      rcases hc : cache (create_cache_key .gate n u) with _ | er
      · exact h2
      · rcases er with gr | cr
        · exact nodup_keys_upsert _ _ _ h2
        · exact h2
    · unfold gatesProbeStep
      rcases hc : cache (create_cache_key .gate n u) with _ | er
      · intro x hx
        rcases List.mem_append.mp hx with h | h
        · exact h3 x h
        · rw [List.mem_singleton.mp h]; exact hn
      · rcases er with gr | cr
        · exact h3
        · exact h3
    · exact hns

/-- The invariant of the gate result-storing loop. -/
lemma gatesStore_inv (u : User) (P : String → Prop) :
    ∀ (rs : List GateEvaluationResult)
      (acc : List (String × Bool) × List MetricEvent × List (CacheKey × EvaluationResult)),
      (∀ p ∈ acc.1, P p.1) → (acc.1.map Prod.fst).Nodup →
      (∀ g ∈ rs, P g.name) →
      (∀ p ∈ (rs.foldl (gatesStoreStep u) acc).1, P p.1)
      ∧ ((rs.foldl (gatesStoreStep u) acc).1.map Prod.fst).Nodup := by
  intro rs
  induction rs with
  | nil => intro acc h1 h2 _; exact ⟨h1, h2⟩
  | cons g gs ih =>
    intro acc h1 h2 hall
    rw [List.foldl_cons]
    apply ih
    · intro p hp
      rcases upsert_mem acc.1 g.name g.value p hp with h | h
      · rw [h]; exact hall g (List.mem_cons_self _ _)
      · exact h1 p h
    · exact nodup_keys_upsert _ _ _ h2
    · exact fun x hx => hall x (List.mem_cons_of_mem _ hx)

/-- Whenever check_gates succeeds, the keys of the returned map are among
the requested names and pairwise distinct. -/
lemma check_gates_ok_keys (emailOk : RStr → Bool)
    (cache : CacheKey → Option EvaluationResult)
    (rawFetch : List String → Except StatsigError (List GateEvaluationResult))
    (names : List String) (u : User) (m : List (String × Bool))
    (hok : (check_gates emailOk cache rawFetch names u).result = .ok m) :
    (∀ p ∈ m, p.1 ∈ names) ∧ (m.map Prod.fst).Nodup := by
  unfold check_gates at hok
  by_cases hemp : names = []
  · rw [if_pos hemp] at hok
    cases hok
    simp
  rw [if_neg hemp] at hok
  rcases hname : firstNameError "gate" names with _ | e
  · rw [hname] at hok
    simp only [] at hok
    by_cases hval : !validate_user emailOk u
    · rw [if_pos hval] at hok
      cases hok
    rw [if_neg hval] at hok
    have hprobe := gatesProbe_inv cache u (· ∈ names) names ([], [], [])
      (by simp) (by simp) (by simp) (fun n hn => hn)
    by_cases hmiss : (gatesCacheProbe cache u names).2.1 = []
    · rw [if_pos hmiss] at hok
      cases hok
      exact ⟨hprobe.1, hprobe.2.1⟩
    rw [if_neg hmiss] at hok
    rcases hfetch : rawFetch (gatesCacheProbe cache u names).2.1 with e | rs
    · rw [hfetch] at hok
      simp only [Except.map] at hok
      cases hok
    · rw [hfetch] at hok
      simp only [Except.map] at hok
      have hstore := gatesStore_inv u (· ∈ names)
        (rs.filter (fun r => (gatesCacheProbe cache u names).2.1.contains r.name))
        ((gatesCacheProbe cache u names).1, (gatesCacheProbe cache u names).2.2, [])
        hprobe.1 hprobe.2.1
        (by
          intro g hg
          have hgm := (List.mem_filter.mp hg).2
          have : g.name ∈ (gatesCacheProbe cache u names).2.1 := by
            simpa using hgm
          exact hprobe.2.2 g.name this)
      cases hok
      exact hstore
  · rw [hname] at hok
    simp only [] at hok
    cases hok

/-- C7 amended: checkGate resolves the singleton plural lookup by taking
the first value of the result map, whose keys are always among the
requested names, so an absent entry yields false and a present entry
yields its value, exactly as the claim states for gates; getConfig also
takes the first value of its result map, defaulting to null only when the
map is empty — but a fetched config evaluation is keyed by the name the
server returned, so when the requested name is absent while another entry
is present, getConfig returns that entry's value, not null (see the
counterexample). -/
theorem gate_and_config_resolution (emailOk : RStr → Bool)
    (cache : CacheKey → Option EvaluationResult)
    (rawFetch : List String → Except StatsigError (List GateEvaluationResult))
    (rawGetConfig : String → Except StatsigError ConfigEvaluationResult)
    (name : String) (u : User) :
    (∀ m, (check_gates emailOk cache rawFetch [name] u).result = .ok m →
        check_gate emailOk cache rawFetch name u
          = .ok ((List.lookup name m).getD false))
    ∧ (∀ e, (check_gates emailOk cache rawFetch [name] u).result = .error e →
        check_gate emailOk cache rawFetch name u = .error e)
    ∧ (∀ m, (get_config_evaluations emailOk cache rawGetConfig [name] u).result
          = .ok m → m = [] →
        get_config emailOk cache rawGetConfig name u = .ok .null)
    ∧ (∀ m, (get_config_evaluations emailOk cache rawGetConfig [name] u).result
          = .ok m →
        get_config emailOk cache rawGetConfig name u
          = .ok ((firstValue (m.map (fun p => (p.1, p.2.value)))).getD .null))
    ∧ (∀ e, (get_config_evaluations emailOk cache rawGetConfig [name] u).result
          = .error e →
        get_config emailOk cache rawGetConfig name u = .error e) := by
  refine ⟨?_, ?_, ?_, ?_, ?_⟩
  · intro m hok
    have hkeys := check_gates_ok_keys emailOk cache rawFetch [name] u m hok
    have hsub : ∀ p ∈ m, p.1 = name := by
      intro p hp
      simpa using hkeys.1 p hp
    unfold check_gate
    rw [hok]
    rcases map_singleton_shape name m hsub hkeys.2 with hm | ⟨v, hm⟩
    · subst hm; rfl
    · subst hm
      simp [firstValue, List.lookup, Except.map]
  · intro e herr
    unfold check_gate
    rw [herr]
    rfl
  · intro m hok hm
    subst hm
    unfold get_config get_configs
    rw [hok]
    rfl
  · intro m hok
    unfold get_config get_configs
    rw [hok]
    rfl
  · intro e herr
    unfold get_config get_configs
    rw [herr]
    rfl

/-- The evaluation the server returns for the requested config myconf,
carrying a different name. -/
def cfgResOther : ConfigEvaluationResult :=
  ⟨"other", .str (ofStr "v"), none, none, none⟩

/-- A transport that answers the myconf config request with an evaluation
named other. -/
def rawCfgOther : String → Except StatsigError ConfigEvaluationResult :=
  fun n => if n = "myconf" then .ok cfgResOther else .error (.internal (ofStr "unexpected"))

/-- The empty cache. -/
def emptyCache : CacheKey → Option EvaluationResult := fun _ => none

/-- A valid user with only a user id. -/
def userU1 : User := { User.default with user_id := some (ofStr "u1") }

/-- C7 counterexample: the claim says getConfig returns null when the
requested config is absent from the result map; here the lookup succeeds,
its result map has no entry for myconf (the single entry is keyed by the
server-returned name other), yet getConfig returns that entry's value, not
null. -/
theorem get_config_absent_not_null :
    (get_config_evaluations (fun _ => true) emptyCache rawCfgOther
        ["myconf"] userU1).result = .ok [("other", cfgResOther)]
    ∧ List.lookup "myconf" [("other", cfgResOther)] = none
    ∧ get_config (fun _ => true) emptyCache rawCfgOther "myconf" userU1
        = .ok (.str (ofStr "v"))
    ∧ JsonValue.str (ofStr "v") ≠ .null := by
  refine ⟨rfl, by decide, rfl, by decide⟩

/-- C7 witness: the resolution applied to a gate fetch that returns no
result for the requested name, so checkGate resolves to false. -/
theorem gate_and_config_resolution_witness :
    check_gate (fun _ => true) emptyCache (fun _ => .ok [])
        "demo-gate" userU1 = .ok false := by
  have h := gate_and_config_resolution (fun _ => true) emptyCache
    (fun _ => .ok []) rawCfgOther "demo-gate" userU1
  have hres : (check_gates (fun _ => true) emptyCache (fun _ => .ok [])
      ["demo-gate"] userU1).result = .ok [] := rfl
  simpa using h.1 [] hres

end Statsig
